import Mathlib

/-!
Verification development for the debate-orchestration backend
(`backend/agents.py`, `backend/arena.py`).

The Python code is shallowly embedded: strings are Lean `String`s (lists of
characters), Python dict-shaped transcript entries become an inductive type,
the generator `run_debate` becomes a pure function returning the list of
yielded events paired with the transcript state right after each yield, and
the external text-generation collaborator (`ollama.chat`) becomes an explicit
function parameter `Collab` returning `Except String String` (`.error e`
models a raised exception with message `e`).  Case mapping (`.lower()`,
`.upper()`) is modelled by `Char.toLower`/`Char.toUpper`, which agree with
Python on ASCII; all concrete inputs used in theorems below are ASCII.
-/

/-! ### Python string primitives used by the source -/

/-- Python whitespace for `str.strip()` / `\s` / `str.split()`:
space, tab, newline, carriage return, vertical tab, form feed. -/
def isPySpace (c : Char) : Bool :=
  c == ' ' || c == '\t' || c == '\n' || c == '\r' || c == Char.ofNat 11 || c == Char.ofNat 12

/-- A `\w` word character of the regex `VOTE:\s*(\w+)` (ASCII fragment):
letters, digits, underscore. -/
def isWordChar (c : Char) : Bool :=
  c.isAlphanum || c == '_'

def lowerL (l : List Char) : List Char := l.map Char.toLower

def upperL (l : List Char) : List Char := l.map Char.toUpper

/-- `s.lower()`. -/
def lowerStr (s : String) : String := ⟨lowerL s.data⟩

/-- Python `str.strip` semantics: remove ALL leading and ALL trailing
characters satisfying `p`. -/
def stripEnds (p : Char → Bool) (l : List Char) : List Char :=
  ((l.dropWhile p).reverse.dropWhile p).reverse

/-- `s.strip()` (strip leading and trailing whitespace). -/
def pyStripWs (s : String) : String :=
  ⟨stripEnds isPySpace s.data⟩

/-- The character set of `result.strip('"\'')` in `agents.py`: a double quote
and a single quote (the latter written via its code point 39). -/
def quoteChars : List Char := ['"', Char.ofNat 39]

/-- `s.strip('"\'')`: removes ALL leading and trailing characters that are in
`quoteChars` (Python `str.strip` with an argument strips a character set, not
a single layer). -/
def stripQuotes (s : String) : String :=
  ⟨stripEnds (quoteChars.contains ·) s.data⟩

/-- Python substring test `pat in l` on character lists. -/
def containsSub (pat : List Char) : List Char → Bool
  | [] => pat.isEmpty
  | c :: rest => pat.isPrefixOf (c :: rest) || containsSub pat rest

/-- Index of the first occurrence of `pat` in `l` (Python `str.find`,
restricted to the found case). -/
def findIdxSub (pat : List Char) : List Char → Option Nat
  | [] => if pat.isEmpty then some 0 else none
  | c :: rest =>
    if pat.isPrefixOf (c :: rest) then some 0
    else (findIdxSub pat rest).map (· + 1)

/-- `l.split(pat, 1)[1]`: the suffix after the first occurrence of `pat`
(whole list when `pat` does not occur; the source only reaches this in the
occurring case). -/
def splitAfterFirst (pat : List Char) (l : List Char) : List Char :=
  match findIdxSub pat l with
  | some i => l.drop (i + pat.length)
  | none => l

/-- Python `str.replace(pat, repl)` on character lists: replace every
non-overlapping occurrence left to right.  Fuel-indexed so the recursion is
structural (the fuel is the list length plus one). -/
def replaceAllAux (pat repl : List Char) : Nat → List Char → List Char
  | _, [] => []
  | 0, l => l
  | fuel + 1, c :: rest =>
    if pat.isPrefixOf (c :: rest) then
      repl ++ replaceAllAux pat repl fuel (List.drop (pat.length - 1) rest)
    else
      c :: replaceAllAux pat repl fuel rest

def replaceAll (pat repl : List Char) (l : List Char) : List Char :=
  replaceAllAux pat repl l.length l

/-- The maximal whitespace-separated tokens of a list of characters
(Python `str.split()` with no argument): runs of non-whitespace characters,
empty runs dropped.  `acc` accumulates the current token reversed. -/
def wsTokensAux : List Char → List Char → List (List Char)
  | [], acc => if acc.isEmpty then [] else [acc.reverse]
  | c :: rest, acc =>
    if isPySpace c then
      if acc.isEmpty then wsTokensAux rest [] else acc.reverse :: wsTokensAux rest []
    else wsTokensAux rest (c :: acc)

/-- `' '.join(s.split())`: collapse whitespace runs to single spaces and trim. -/
def normalizeWs (s : String) : String :=
  String.intercalate " " ((wsTokensAux s.data []).map (fun l => (⟨l⟩ : String)))

/-- Decimal digits of a natural number (fuel-indexed structural recursion so
that the kernel can evaluate it). -/
def natDigits : Nat → Nat → List Char
  | 0, _ => []
  | fuel + 1, n =>
    if n < 10 then [Char.ofNat (48 + n)]
    else natDigits fuel (n / 10) ++ [Char.ofNat (48 + n % 10)]

/-- Decimal string of a natural number (Python f-string interpolation of an
int). -/
def natToString (n : Nat) : String := ⟨natDigits (n + 1) n⟩

/-! ### `strip_emojis` (`agents.py` lines 8-32) -/

/-- The character class of the emoji regex in `strip_emojis`, as a predicate
on code points; one disjunct per range/character of the source pattern. -/
def isEmojiChar (c : Char) : Bool :=
  let n := c.toNat
  (0x1F600 ≤ n && n ≤ 0x1F64F) ||   -- emoticons
  (0x1F300 ≤ n && n ≤ 0x1F5FF) ||   -- symbols and pictographs
  (0x1F680 ≤ n && n ≤ 0x1F6FF) ||   -- transport and map symbols
  (0x1F1E0 ≤ n && n ≤ 0x1F1FF) ||   -- flags
  (0x2702 ≤ n && n ≤ 0x27B0) ||     -- dingbats
  (0x24C2 ≤ n && n ≤ 0x1F251) ||    -- enclosed characters
  (0x1F926 ≤ n && n ≤ 0x1F937) ||   -- gestures
  (0x10000 ≤ n && n ≤ 0x10FFFF) ||  -- supplementary planes
  (0x2640 ≤ n && n ≤ 0x2642) ||     -- gender symbols
  (0x2600 ≤ n && n ≤ 0x2B55) ||     -- misc symbols
  (n == 0x200D) ||                  -- zero width joiner
  (n == 0x23CF) ||                  -- eject symbol
  (0x23E9 ≤ n && n ≤ 0x23F3) ||     -- media symbols
  (0x231A ≤ n && n ≤ 0x231B) ||     -- watch and hourglass
  (n == 0xFE0F) ||                  -- variation selector
  (n == 0x3030)                     -- wavy dash

/-- `strip_emojis`: substituting the emoji character class with the empty
string deletes every character of the class; the source then calls
`.strip()` on the result. -/
def strip_emojis (s : String) : String :=
  pyStripWs ⟨s.data.filter (fun c => !isEmojiChar c)⟩

/-- The sanitation pipeline shared by the four text-producing agent
operations: `.strip()`, then `.strip('"\'')`, then `strip_emojis`. -/
def sanitizeOutput (text : String) : String :=
  strip_emojis (stripQuotes (pyStripWs text))

/-! ### The vote extractor (`Agent.generate_vote`, `agents.py` lines 259-327) -/

/-- `re.search(r'VOTE:\s*(\w+)', content, re.IGNORECASE)`: scan left to right
for the first position where `VOTE:` matches case-insensitively followed
(after optional whitespace) by at least one word character; the captured group
is the maximal word-character run there.  A position where no word character
follows the whitespace is not a match (the scan continues), mirroring regex
backtracking: whitespace characters are not word characters, so shrinking
`\s*` cannot rescue the match. -/
def findVoteToken : List Char → Option (List Char)
  | [] => none
  | c :: rest =>
    if lowerL (List.take 5 (c :: rest)) = "vote:".data then
      let body := ((c :: rest).drop 5).dropWhile isPySpace
      match body.head? with
      | some d =>
        if isWordChar d then some (body.takeWhile isWordChar) else findVoteToken rest
      | none => findVoteToken rest
    else findVoteToken rest

/-- Rule 1 of the extractor: the captured token (`.strip()`-ed) is compared
case-insensitively against each roster name; the first equal name wins. -/
def matchVoteMarker (names : List String) (content : String) : Option String :=
  match findVoteToken content.data with
  | none => none
  | some tok =>
    let voteText := pyStripWs ⟨tok⟩
    names.find? (fun n => lowerStr n == lowerStr voteText)

/-- Rule 2 ("Approach 2") of the extractor: the first roster name such that
the content starts with it (case-insensitively) or the content contains
`"vote for <name.lower()>"`. -/
def matchLeadingMention (names : List String) (content : String) : Option String :=
  names.find? (fun n =>
    (lowerL n.data).isPrefixOf (lowerL content.data)
    || containsSub ("vote for ".data ++ lowerL n.data) (lowerL content.data))

/-- Rule 3 ("Approach 3") of the extractor: the first roster name occurring
anywhere in the content, case-insensitively. -/
def matchAnywhere (names : List String) (content : String) : Option String :=
  names.find? (fun n => containsSub (lowerL n.data) (lowerL content.data))

/-- The ordered fallback chain for the vote name: rule 1, else rule 2, else
rule 3. -/
def chosenVote (names : List String) (content : String) : Option String :=
  match matchVoteMarker names content with
  | some v => some v
  | none =>
    match matchLeadingMention names content with
    | some v => some v
    | none => matchAnywhere names content

/-- Lazy capture of `(.+?)(?=\n\n|$)` with `re.DOTALL`: the shortest nonempty
run after which either the string ends or a blank line (`\n\n`) follows. -/
def takeUntilBlankLine : List Char → List Char
  | [] => []
  | c :: rest =>
    match rest with
    | '\n' :: '\n' :: _ => [c]
    | [] => [c]
    | _ => c :: takeUntilBlankLine rest

/-- `re.search(r'REASON:\s*(.+?)(?=\n\n|$)', content, re.IGNORECASE | re.DOTALL)`:
scan for the first case-insensitive `REASON:`; greedy `\s*` skips the
whitespace run; the lazy capture then runs to the first blank line or the end.
When nothing follows the whitespace run, the regex backtracks one whitespace
character into the capture (so the capture is that single whitespace
character); when `REASON:` sits at the very end, the position does not match
and the scan continues. -/
def findReasonCapture : List Char → Option (List Char)
  | [] => none
  | c :: rest =>
    if upperL (List.take 7 (c :: rest)) = "REASON:".data then
      let after := (c :: rest).drop 7
      let body := after.dropWhile isPySpace
      match body with
      | [] =>
        match (after.takeWhile isPySpace).getLast? with
        | some w => some [w]
        | none => findReasonCapture rest
      | _ => some (takeUntilBlankLine body)
    else findReasonCapture rest

/-- The `REASON:` marker rule: captured text, `.strip()`-ed, internal
whitespace runs collapsed (`' '.join(reason.split())`); empty string when the
marker is absent. -/
def reasonFromMarker (content : String) : String :=
  match findReasonCapture content.data with
  | none => ""
  | some cap => normalizeWs (pyStripWs ⟨cap⟩)

/-- The "text after the vote" fallback for the reason (source block guarded by
`if vote and not reason`): text after a case-insensitive `REASON:` if one
occurs anywhere, else text after the first (case-sensitive) occurrence of the
chosen name, else the whole content; then `.strip()[:300]`. -/
def reasonFromRemaining (content : String) (v : String) : String :=
  let remaining :=
    match findIdxSub "REASON:".data (upperL content.data) with
    | some i => pyStripWs ⟨content.data.drop (i + 7)⟩
    | none =>
      if containsSub v.data content.data then (⟨splitAfterFirst v.data content.data⟩ : String)
      else content
  if remaining.isEmpty then "" else ⟨(pyStripWs remaining).data.take 300⟩

/-- `"Their philosophical approach offered valuable insights on this topic."`
— the reason installed together with the first-roster-entry vote fallback. -/
def fallbackNoNameReason : String :=
  "Their philosophical approach offered valuable insights on this topic."

/-- `"Their argument presented a compelling case that challenged my perspective."`
— the generic sentence substituted when the reason is empty or shorter than
10 characters. -/
def fallbackShortReason : String :=
  "Their argument presented a compelling case that challenged my perspective."

/-- The reason as it stands just before the final cleaning step: marker
reason if present, else (when a vote was found) the after-the-vote fallback,
all overwritten by `fallbackNoNameReason` when no name was found and the
roster is nonempty. -/
def preReason (names : List String) (content : String) : String :=
  let r := reasonFromMarker content
  match chosenVote names content with
  | some v => if r.isEmpty then reasonFromRemaining content v else r
  | none => if names.isEmpty then r else fallbackNoNameReason

/-- `reason.replace('**', '').replace('*', '').strip()`. -/
def scrubReason (r : String) : String :=
  pyStripWs ⟨replaceAll "*".data [] (replaceAll "**".data [] r.data)⟩

/-- The final reason: after scrubbing, an empty or shorter-than-10 reason is
replaced by the fixed generic sentence. -/
def finalizeReason (r : String) : String :=
  let r2 := scrubReason r
  if r2.isEmpty || r2.length < 10 then fallbackShortReason else r2

structure VoteResult where
  voter : String
  vote : Option String
  reason : String
deriving DecidableEq, Repr

/-- The parsing portion of `Agent.generate_vote` applied to the stripped
response text: `names` is `other_names` (the roster already filtered of the
voter, as the source does before parsing).  When no rule finds a name,
`names.head?` realises `other_names[0] if other_names else None`. -/
def parseVote (selfName : String) (names : List String) (content : String) : VoteResult :=
  let vote :=
    match chosenVote names content with
    | some w => some w
    | none => names.head?
  ⟨selfName, vote, finalizeReason (preReason names content)⟩

/-! ### Data model: participants, transcript entries, events -/

/-- `Agent.__init__`: name, role, personality, stance (the `model` field is
part of the excluded generation backend). -/
structure AgentData where
  name : String
  role : String
  personality : String
  stance : String
deriving DecidableEq, Repr

/-- A transcript entry (the dicts appended to `DebateArena.history`),
discriminated by the `type` field of the source dicts. -/
inductive Entry
  | argument (round : Nat) (phase : String) (agent role message : String)
  | crossExamQuestion (questioner target message : String)
  | crossExamResponse (responder questioner message : String)
  | closing (agent role message : String)
  | vote (voter : String) (voteFor : Option String) (reason : String)
deriving DecidableEq, Repr

/-- Whether an entry is a vote entry. -/
def Entry.isVote : Entry → Bool
  | .vote _ _ _ => true
  | _ => false

/-- The events yielded by `DebateArena.run_debate`.  Content entries are
yielded via the `entry` constructor (the source yields the same dicts it
appends, and yields vote dicts that it never appends). -/
inductive Event
  | error (message : String)
  | start (topic : String) (agents : List AgentData) (rounds : Nat)
  | roundStart (round : Nat) (phase : String)
  | entry (e : Entry)
  | crossExamStart (message : String)
  | closingStart (message : String)
  | votingStart (message : String)
  | votingResults (tally : List (String × Nat)) (message : String)
  | synthesis (round agent role message : String)
  | ended (totalArguments : Nat)
deriving DecidableEq, Repr

/-- Whether an event is the configuration-error event. -/
def Event.isError : Event → Bool
  | .error _ => true
  | _ => false

/-! ### The generation collaborator -/

/-- The request kinds of the six generation call sites.  The source builds a
prompt string from exactly these data (prompt wording is excluded from the
spec); the collaborator is modelled as a function of the structured request. -/
inductive GenKind
  | respond (round : Nat)
  | ask (target : String)
  | answer (questioner : String) (question : String)
  | close
  | voteReq (choices : List String)
  | synthesis
deriving DecidableEq, Repr

/-- A generation request: the calling agent's name, the topic, the transcript
snapshot passed as `debate_history`, and the kind-specific data. -/
structure GenReq where
  agent : String
  topic : String
  history : List Entry
  kind : GenKind
deriving Repr

/-- The external text-generation collaborator (`ollama.chat`): returns the
response text, or `.error e` modelling a raised exception with message `e`. -/
def Collab := GenReq → Except String String

/-! ### Agent operations (`agents.py`) -/

/-- `Agent.generate_response`: sanitize on success, tagged placeholder on
collaborator failure.  (`_format_history`, `_extract_participants` and
`_build_prompt` only shape the excluded prompt string.) -/
def generate_response (collab : Collab) (ag : AgentData) (topic : String)
    (history : List Entry) (round : Nat) : String :=
  match collab ⟨ag.name, topic, history, .respond round⟩ with
  | .ok text => sanitizeOutput text
  | .error e => "[Error generating response: " ++ e ++ "]"

/-- `Agent.generate_cross_examination`. -/
def generate_cross_examination (collab : Collab) (ag : AgentData) (topic : String)
    (history : List Entry) (target : String) : String :=
  match collab ⟨ag.name, topic, history, .ask target⟩ with
  | .ok text => sanitizeOutput text
  | .error e => "[Error generating question: " ++ e ++ "]"

/-- `Agent.generate_cross_exam_response`. -/
def generate_cross_exam_response (collab : Collab) (ag : AgentData) (topic : String)
    (history : List Entry) (questioner question : String) : String :=
  match collab ⟨ag.name, topic, history, .answer questioner question⟩ with
  | .ok text => sanitizeOutput text
  | .error e => "[Error generating response: " ++ e ++ "]"

/-- `Agent.generate_closing_statement`. -/
def generate_closing_statement (collab : Collab) (ag : AgentData) (topic : String)
    (history : List Entry) : String :=
  match collab ⟨ag.name, topic, history, .close⟩ with
  | .ok text => sanitizeOutput text
  | .error e => "[Error generating closing: " ++ e ++ "]"

/-- `Agent.generate_vote`: filter the roster of the voter's own name, then
either parse the stripped response or (on collaborator failure) return the
default vote `other_names[0] if other_names else None` with the error reason. -/
def generate_vote (collab : Collab) (ag : AgentData) (topic : String)
    (history : List Entry) (other_agents : List String) : VoteResult :=
  let other_names := other_agents.filter (fun n => n != ag.name)
  match collab ⟨ag.name, topic, history, .voteReq other_names⟩ with
  | .ok raw => parseVote ag.name other_names (pyStripWs raw)
  | .error e => ⟨ag.name, other_names.head?, "Error generating vote: " ++ e⟩

/-! ### Arena (`arena.py`) -/

/-- `DebateArena.__init__` state. -/
structure Arena where
  topic : String
  rounds : Nat
  agents : List AgentData
  history : List Entry
  is_running : Bool
deriving Repr

/-- `"Opening Statements" if round_num == 1 else f"Rebuttal Round {round_num - 1}"`. -/
def phaseName (r : Nat) : String :=
  if r = 1 then "Opening Statements" else "Rebuttal Round " ++ natToString (r - 1)

/-- `range(1, self.rounds + 1)`. -/
def roundNums (n : Nat) : List Nat := (List.range n).map (· + 1)

/-- The argument entry produced for one agent in one round. -/
def argEntryOf (collab : Collab) (topic : String) (r : Nat) (ph : String)
    (ag : AgentData) (h : List Entry) : Entry :=
  Entry.argument r ph ag.name ag.role (generate_response collab ag topic h r)

/-- The per-agent loop of one round: each argument entry is appended to the
history before the next agent speaks, and yielded with the history state
right after the append. -/
def runAgentsRound (collab : Collab) (topic : String) (r : Nat) (ph : String) :
    List AgentData → List Entry → List (Event × List Entry)
  | [], _ => []
  | ag :: rest, h =>
    let e := argEntryOf collab topic r ph ag h
    (.entry e, h ++ [e]) :: runAgentsRound collab topic r ph rest (h ++ [e])

/-- The history after the per-agent loop of one round. -/
def histAfterAgentsRound (collab : Collab) (topic : String) (r : Nat) (ph : String) :
    List AgentData → List Entry → List Entry
  | [], h => h
  | ag :: rest, h =>
    histAfterAgentsRound collab topic r ph rest (h ++ [argEntryOf collab topic r ph ag h])

/-- The rounds loop of `run_debate` (phase 1): a `round_start` event then the
per-agent loop, for each round number. -/
def runRounds (collab : Collab) (topic : String) (agents : List AgentData) :
    List Nat → List Entry → List (Event × List Entry)
  | [], _ => []
  | r :: rs, h =>
    (Event.roundStart r (phaseName r), h) ::
      (runAgentsRound collab topic r (phaseName r) agents h ++
        runRounds collab topic agents rs
          (histAfterAgentsRound collab topic r (phaseName r) agents h))

/-- The history after the rounds loop. -/
def histAfterRoundsLoop (collab : Collab) (topic : String) (agents : List AgentData) :
    List Nat → List Entry → List Entry
  | [], h => h
  | r :: rs, h =>
    histAfterRoundsLoop collab topic agents rs
      (histAfterAgentsRound collab topic r (phaseName r) agents h)

/-- The question/response pair generated by the questioner at index `i`
inside `_run_cross_examination`: the target is the agent at index
`(i + 1) % len(self.agents)`, and BOTH generation calls receive the same
`debate_history` argument `h` (`self.history`, which the loop never
modifies — it collects the entries in a local list). -/
def crossExamPairAt (collab : Collab) (topic : String) (agents : List AgentData)
    (h : List Entry) (q : AgentData) (i : Nat) : List Entry :=
  match agents.get? ((i + 1) % agents.length) with
  | none => []
  | some t =>
    let question := generate_cross_examination collab q topic h t.name
    let response := generate_cross_exam_response collab t topic h q.name question
    [Entry.crossExamQuestion q.name t.name question,
     Entry.crossExamResponse t.name q.name response]

/-- The `enumerate(self.agents)` loop of `_run_cross_examination`. -/
def crossExamGo (collab : Collab) (topic : String) (agents : List AgentData)
    (h : List Entry) : List AgentData → Nat → List Entry
  | [], _ => []
  | q :: rest, i =>
    crossExamPairAt collab topic agents h q i ++
      crossExamGo collab topic agents h rest (i + 1)

/-- `DebateArena._run_cross_examination`: returns the local list of
question/response entries; the caller appends them to the history afterwards. -/
def runCrossExamination (collab : Collab) (topic : String) (agents : List AgentData)
    (h : List Entry) : List Entry :=
  crossExamGo collab topic agents h agents 0

/-- The closing entry produced for one agent. -/
def closEntryOf (collab : Collab) (topic : String) (ag : AgentData)
    (h : List Entry) : Entry :=
  Entry.closing ag.name ag.role (generate_closing_statement collab ag topic h)

/-- The closing-statements loop (phase 3): each closing entry is appended
before the next agent's call. -/
def runClosingTrace (collab : Collab) (topic : String) :
    List AgentData → List Entry → List (Event × List Entry)
  | [], _ => []
  | ag :: rest, h =>
    let e := closEntryOf collab topic ag h
    (.entry e, h ++ [e]) :: runClosingTrace collab topic rest (h ++ [e])

/-- The history after the closing-statements loop. -/
def histAfterClosingLoop (collab : Collab) (topic : String) :
    List AgentData → List Entry → List Entry
  | [], h => h
  | ag :: rest, h =>
    histAfterClosingLoop collab topic rest (h ++ [closEntryOf collab topic ag h])

/-- `DebateArena._run_voting_round`: one `generate_vote` call per agent, all
receiving the same `debate_history` (`self.history`) and the full
`agent_names` roster; the vote dicts are collected in a local list. -/
def runVotingRound (collab : Collab) (topic : String) (agents : List AgentData)
    (h : List Entry) : List Entry :=
  agents.map (fun ag =>
    let vr := generate_vote collab ag topic h (agents.map AgentData.name)
    Entry.vote vr.voter vr.vote vr.reason)

/-- `DebateArena._tally_votes` helper: Python dict update
`tally[name] = tally.get(name, 0) + 1` on an insertion-ordered
association list. -/
def bumpTally : List (String × Nat) → String → List (String × Nat)
  | [], name => [(name, 1)]
  | (k, c) :: rest, name =>
    if k = name then (k, c + 1) :: rest else (k, c) :: bumpTally rest name

/-- `DebateArena._tally_votes`: count the truthy `vote_for` fields. -/
def tallyVotes (votes : List Entry) : List (String × Nat) :=
  votes.foldl
    (fun t v =>
      match v with
      | .vote _ (some name) _ => if name.isEmpty then t else bumpTally t name
      | _ => t)
    []

/-- Stable insertion into a descending-by-count list: mirrors Python
`sorted(items, key=lambda x: x[1], reverse=True)` (stable, so equal counts
keep insertion order) when applied by `foldl` in list order. -/
def insertDesc (x : String × Nat) : List (String × Nat) → List (String × Nat)
  | [] => [x]
  | y :: ys => if y.2 < x.2 then x :: y :: ys else y :: insertDesc x ys

/-- `DebateArena._format_voting_results`. -/
def formatVotingResults (tally : List (String × Nat)) : String :=
  if tally.isEmpty then "No votes were cast."
  else
    let sortedResults := tally.foldl (fun acc x => insertDesc x acc) []
    let maxVotes := (sortedResults.head?.map Prod.snd).getD 0
    let winners := (sortedResults.filter (fun p => p.2 == maxVotes)).map Prod.fst
    let lines :=
      ["**Voting Results:**"] ++
      sortedResults.map (fun p =>
        "- " ++ p.1 ++ ": " ++ natToString p.2 ++ " " ++
          (if p.2 == 1 then "vote" else "votes")) ++
      [if winners.length == 1 then
        "\n**Winner:** " ++ winners.headD "" ++ " received the most votes!"
       else
        "\n**Tie:** " ++ String.intercalate " and " winners ++ " tied for the most votes!"]
    String.intercalate "\n" lines

/-- `DebateArena._generate_synthesis`: one collaborator call over the whole
history (the formatting of the prompt is excluded); `.strip()` on success,
tagged placeholder on failure. -/
def generate_synthesis (collab : Collab) (topic : String) (h : List Entry) : String :=
  match collab ⟨"Moderator", topic, h, .synthesis⟩ with
  | .ok text => pyStripWs text
  | .error e => "[Error generating synthesis: " ++ e ++ "]"

def crossExamStartMsg : String :=
  "Cross-Examination: Each debater will ask a pointed question to challenge an opponent."

def closingStartMsg : String :=
  "Closing Statements: Each debater makes their final argument."

def votingStartMsg : String :=
  "Voting: Each debater votes for the most compelling argument."

/-- The history right after the rounds phase of a run (`self.history` starts
from `[]`: `run_debate` resets it). -/
def historyAfterRounds (collab : Collab) (a : Arena) : List Entry :=
  histAfterRoundsLoop collab a.topic a.agents (roundNums a.rounds) []

/-- The trace of the rounds phase. -/
def roundsTrace (collab : Collab) (a : Arena) : List (Event × List Entry) :=
  runRounds collab a.topic a.agents (roundNums a.rounds) []

/-- The cross-examination entries of a run. -/
def crossEntries (collab : Collab) (a : Arena) : List Entry :=
  runCrossExamination collab a.topic a.agents (historyAfterRounds collab a)

/-- The history right after the cross-examination phase (the local entry list
is appended to `self.history` en bloc by the `run_debate` loop). -/
def historyAfterCrossExam (collab : Collab) (a : Arena) : List Entry :=
  historyAfterRounds collab a ++ crossEntries collab a

/-- The trace of the closing phase. -/
def closingTrace (collab : Collab) (a : Arena) : List (Event × List Entry) :=
  runClosingTrace collab a.topic a.agents (historyAfterCrossExam collab a)

/-- The history right after the closing phase — the snapshot every vote call
receives; it is never extended again (votes are yielded, not appended). -/
def historyAfterClosing (collab : Collab) (a : Arena) : List Entry :=
  histAfterClosingLoop collab a.topic a.agents (historyAfterCrossExam collab a)

/-- The vote entries of a run. -/
def voteEntries (collab : Collab) (a : Arena) : List Entry :=
  runVotingRound collab a.topic a.agents (historyAfterClosing collab a)

/-- Emit a list of entries one at a time, appending each to the history
before yielding it (the `for entry in cross_exam_entries` loop of
`run_debate`). -/
def emitAppend : List Entry → List Entry → List (Event × List Entry)
  | _, [] => []
  | h, e :: es => (Event.entry e, h ++ [e]) :: emitAppend (h ++ [e]) es

/-- `DebateArena.run_debate`, modelled as the finite list of yielded events,
each paired with the value of `self.history` right after that yield.  The
guard is only on the number of agents; `is_running` is set by the source but
never read, so it does not appear on the right-hand side. -/
def runDebate (collab : Collab) (a : Arena) : List (Event × List Entry) :=
  if a.agents.length < 2 then
    [(.error "Need at least 2 agents for a debate", a.history)]
  else
    ((Event.start a.topic a.agents a.rounds, ([] : List Entry)) :: roundsTrace collab a) ++
    ((Event.crossExamStart crossExamStartMsg, historyAfterRounds collab a) ::
      emitAppend (historyAfterRounds collab a) (crossEntries collab a)) ++
    ((Event.closingStart closingStartMsg, historyAfterCrossExam collab a) ::
      closingTrace collab a) ++
    ((Event.votingStart votingStartMsg, historyAfterClosing collab a) ::
      (voteEntries collab a).map (fun v => (Event.entry v, historyAfterClosing collab a))) ++
    [(Event.votingResults (tallyVotes (voteEntries collab a))
        (formatVotingResults (tallyVotes (voteEntries collab a))),
      historyAfterClosing collab a),
     (Event.synthesis "final" "Moderator" "Synthesis"
        (generate_synthesis collab a.topic (historyAfterClosing collab a)),
      historyAfterClosing collab a),
     (Event.ended (historyAfterClosing collab a).length, historyAfterClosing collab a)]

/-- `DebateArena.get_history` returns `self.history.copy()`; `reset` clears. -/
def traceLens (tr : List (Event × List Entry)) : List Nat :=
  tr.map (fun p => p.2.length)

/-! ### Spec-side model of incremental cross-examination (for comparison)

`crossExamSpecModel` is NOT translated from the source: it follows the spec's
words ("Each question/answer pair is appended to the transcript immediately
(question before its response) before the next participant's question is
generated"), so that the source's `runCrossExamination` can be compared
against it. -/

/-- The spec-described loop: the pair of questioner `i` is appended to the
history before the question of questioner `i + 1` is generated. -/
def crossExamSpecGo (collab : Collab) (topic : String) (agents : List AgentData) :
    List AgentData → Nat → List Entry → List Entry
  | [], _, _ => []
  | q :: rest, i, h =>
    match agents.get? ((i + 1) % agents.length) with
    | none => crossExamSpecGo collab topic agents rest (i + 1) h
    | some t =>
      let question := generate_cross_examination collab q topic h t.name
      let response := generate_cross_exam_response collab t topic h q.name question
      let pair := [Entry.crossExamQuestion q.name t.name question,
                   Entry.crossExamResponse t.name q.name response]
      pair ++ crossExamSpecGo collab topic agents rest (i + 1) (h ++ pair)

/-- Cross-examination as the spec describes it (incremental appending). -/
def crossExamSpecModel (collab : Collab) (topic : String) (agents : List AgentData)
    (h : List Entry) : List Entry :=
  crossExamSpecGo collab topic agents agents 0 h

/-! ### Snapshot observers -/

/-- The `debate_history` arguments passed to the generation calls of
`_run_cross_examination`, in call order (the question call then the response
call of each iteration).  Both calls of every iteration pass `self.history`,
which the loop does not modify. -/
def crossExamSnapshots (_collab : Collab) (_topic : String) (agents : List AgentData)
    (h : List Entry) : List (List Entry) :=
  agents.flatMap (fun _ => [h, h])

/-! ### A reference-semantics model of Python lists for `get_history` -/

/-- A store of Python list objects: cell index = object identity.  This
models the aliasing behaviour relevant to `DebateArena.get_history`. -/
abbrev ListStore := List (List Entry)

/-- Dereference a list object. -/
def readCell (st : ListStore) (r : Nat) : List Entry :=
  (List.get? st r).getD []

/-- In-place update of a list object. -/
def writeCell (st : ListStore) (r : Nat) (v : List Entry) : ListStore :=
  List.set st r v

/-- Allocate a fresh list object; returns the new store and the new
object's identity. -/
def allocCell (st : ListStore) (v : List Entry) : ListStore × Nat :=
  (st ++ [v], List.length st)

/-- `DebateArena.get_history`: `return self.history.copy()` — allocates a
fresh list object holding the same contents as the arena's `history` object
(`arenaRef`). -/
def get_history (st : ListStore) (arenaRef : Nat) : ListStore × Nat :=
  allocCell st (readCell st arenaRef)

/-- `lst.append(e)` on the object `r`. -/
def pyAppend (st : ListStore) (r : Nat) (e : Entry) : ListStore :=
  writeCell st r (readCell st r ++ [e])

/-- `lst.pop()` on the object `r` (removing an entry). -/
def pyPop (st : ListStore) (r : Nat) : ListStore :=
  writeCell st r (readCell st r).dropLast

/-! ### Step relation for the transcript trace -/

/-- How one yielded event relates the previous history to the next: a
non-vote content entry is appended (the history grows by exactly that entry);
a yielded vote entry leaves the history unchanged (the source never appends
votes); every marker or results event leaves the history unchanged. -/
def stepFrom (h : List Entry) (q : Event × List Entry) : Prop :=
  match q.1 with
  | .entry e => if e.isVote then q.2 = h else q.2 = h ++ [e]
  | _ => q.2 = h

/-- The step relation between consecutive trace elements. -/
def stepOk (p q : Event × List Entry) : Prop := stepFrom p.2 q

/-- `SegOk h tr h'`: the trace segment `tr` is a valid evolution of the
history from `h` to `h'` under `stepFrom`. -/
def SegOk : List Entry → List (Event × List Entry) → List Entry → Prop
  | h, [], h' => h' = h
  | h, q :: tr, h' => stepFrom h q ∧ SegOk q.2 tr h'

/-! ### Concrete fixtures used by witnesses and counterexamples -/

def agAda : AgentData := ⟨"Ada", "Engineer", "calm", "pro"⟩

def agBob : AgentData := ⟨"Bob", "Artist", "bold", "con"⟩

/-- A collaborator that always succeeds with the fixed text `"x"`. -/
def constCollab : Collab := fun _ => .ok "x"

/-- A mock collaborator that echoes the length of the transcript snapshot it
was handed (the spec's own suggested instrument for testing snapshot
isolation). -/
def echoLenCollab : Collab := fun req => .ok (natToString req.history.length)

/-- A collaborator that always fails with the fixed message `"boom"`. -/
def failCollab : Collab := fun _ => .error "boom"

/-- A two-agent, one-round arena. -/
def arenaAB : Arena := ⟨"t", 1, [agAda, agBob], [], false⟩

/-- The same arena with `is_running` already `true`. -/
def arenaABRunning : Arena := ⟨"t", 1, [agAda, agBob], [], true⟩

/-! ### Lemmas about the vote extractor -/

theorem mem_of_head?_eq (l : List String) (v : String) (h : l.head? = some v) : v ∈ l := by
  cases l with
  | nil => simp at h
  | cons a t => simp at h; simp [h]

theorem matchVoteMarker_mem (names : List String) (content : String) (v : String)
    (h : matchVoteMarker names content = some v) : v ∈ names := by
  unfold matchVoteMarker at h
  rcases hf : findVoteToken content.data with _ | tok <;> rw [hf] at h
  · cases h
  · exact List.mem_of_find?_eq_some h

theorem matchLeadingMention_mem (names : List String) (content : String) (v : String)
    (h : matchLeadingMention names content = some v) : v ∈ names :=
  List.mem_of_find?_eq_some h

theorem matchAnywhere_mem (names : List String) (content : String) (v : String)
    (h : matchAnywhere names content = some v) : v ∈ names :=
  List.mem_of_find?_eq_some h

theorem chosenVote_mem (names : List String) (content : String) (v : String)
    (h : chosenVote names content = some v) : v ∈ names := by
  unfold chosenVote at h
  rcases h1 : matchVoteMarker names content with _ | w <;> rw [h1] at h
  · rcases h2 : matchLeadingMention names content with _ | w <;> rw [h2] at h
    · exact matchAnywhere_mem names content v h
    · cases h; exact matchLeadingMention_mem names content v h2
  · cases h; exact matchVoteMarker_mem names content v h1

theorem parseVote_vote_sound (selfName content : String) (names : List String)
    (hne : names ≠ []) :
    ∃ v, (parseVote selfName names content).vote = some v ∧ v ∈ names := by
  unfold parseVote
  rcases hc : chosenVote names content with _ | w
  · cases names with
    | nil => exact absurd rfl hne
    | cons a t => exact ⟨a, by simp [hc], by simp⟩
  · exact ⟨w, by simp [hc], chosenVote_mem names content w hc⟩

theorem generate_vote_sound (collab : Collab) (ag : AgentData) (topic : String)
    (history : List Entry) (other_agents : List String)
    (hne : other_agents.filter (fun n => n != ag.name) ≠ []) :
    ∃ v, (generate_vote collab ag topic history other_agents).vote = some v ∧
      v ∈ other_agents.filter (fun n => n != ag.name) := by
  unfold generate_vote
  rcases hcc : collab ⟨ag.name, topic, history,
      .voteReq (other_agents.filter (fun n => n != ag.name))⟩ with e | t
  · simp only [hcc]
    cases hl : other_agents.filter (fun n => n != ag.name) with
    | nil => exact absurd hl hne
    | cons a t2 =>
      refine ⟨a, ?_, ?_⟩
      · show (a :: t2).head? = some a
        rfl
      · exact List.mem_cons_self a t2
  · simp only [hcc]
    exact parseVote_vote_sound ag.name (pyStripWs t)
      (other_agents.filter (fun n => n != ag.name)) hne

theorem exists_other_name (names : List String) (x : String)
    (h2 : 2 ≤ names.length) (hnd : names.Nodup) : ∃ n ∈ names, n ≠ x := by
  match names, h2 with
  | a :: b :: t, _ =>
    by_cases hax : a = x
    · refine ⟨b, by simp, ?_⟩
      subst hax
      intro hbx
      rw [List.nodup_cons] at hnd
      exact hnd.1 (by simp [hbx])
    · exact ⟨a, by simp, hax⟩

theorem generate_vote_voter (collab : Collab) (ag : AgentData) (topic : String)
    (history : List Entry) (other_agents : List String) :
    (generate_vote collab ag topic history other_agents).voter = ag.name := by
  unfold generate_vote
  rcases hcc : collab ⟨ag.name, topic, history,
      .voteReq (other_agents.filter (fun n => n != ag.name))⟩ with e | t
  · simp only [hcc]
  · simp only [hcc]
    rfl

/-- C1: every vote entry produced by the voting round of a debate with at
least 2 registered participants (with the unique names the data model
requires) carries a non-null `votedFor` drawn from the roster passed to the
vote call (`agent_names`) and different from the voter, whatever the
collaborator does (success or failure on any call). -/
theorem voting_round_votes_valid (collab : Collab) (topic : String)
    (agents : List AgentData) (h : List Entry)
    (h2 : 2 ≤ agents.length) (hnd : (agents.map AgentData.name).Nodup) :
    ∀ e ∈ runVotingRound collab topic agents h,
      ∃ voter target reason, e = Entry.vote voter (some target) reason ∧
        target ∈ agents.map AgentData.name ∧ target ≠ voter := by
  intro e he
  unfold runVotingRound at he
  rcases List.mem_map.mp he with ⟨ag, hag, rfl⟩
  have hlen : 2 ≤ (agents.map AgentData.name).length := by simpa using h2
  rcases exists_other_name (agents.map AgentData.name) ag.name hlen hnd with ⟨n, hn, hne⟩
  have hmemf : n ∈ (agents.map AgentData.name).filter (fun m => m != ag.name) :=
    List.mem_filter.mpr ⟨hn, by simpa [bne_iff_ne] using hne⟩
  have hfne : (agents.map AgentData.name).filter (fun m => m != ag.name) ≠ [] :=
    List.ne_nil_of_mem hmemf
  rcases generate_vote_sound collab ag topic h (agents.map AgentData.name) hfne with ⟨v, hv, hvm⟩
  have hvmem : v ∈ agents.map AgentData.name := (List.mem_filter.mp hvm).1
  have hvne : v ≠ ag.name := by
    have := (List.mem_filter.mp hvm).2
    simpa [bne_iff_ne] using this
  refine ⟨ag.name, v, (generate_vote collab ag topic h (agents.map AgentData.name)).reason,
    ?_, hvmem, hvne⟩
  show Entry.vote (generate_vote collab ag topic h (agents.map AgentData.name)).voter
      (generate_vote collab ag topic h (agents.map AgentData.name)).vote
      (generate_vote collab ag topic h (agents.map AgentData.name)).reason = _
  rw [generate_vote_voter, hv]

/-- Witness for C1: the theorem applied to the first vote entry of a concrete
two-agent debate. -/
theorem voting_round_votes_valid_witness :
    ∃ voter target reason,
      Entry.vote "Ada" (some "Bob") fallbackNoNameReason
          = Entry.vote voter (some target) reason
        ∧ target ∈ [agAda, agBob].map AgentData.name ∧ target ≠ voter :=
  voting_round_votes_valid constCollab "t" [agAda, agBob] [] (by decide) (by decide)
    (Entry.vote "Ada" (some "Bob") fallbackNoNameReason) (by decide)

/-- C4 helper: the final reason always has length at least 10 on the parse
path. -/
theorem finalizeReason_long (r : String) : 10 ≤ (finalizeReason r).length := by
  unfold finalizeReason
  cases hb : (scrubReason r).isEmpty || decide ((scrubReason r).length < 10) with
  | true =>
    simp only [hb]
    simp only [if_true]
    decide
  | false =>
    have hn : ¬ ((scrubReason r).length < 10) := by
      intro hlt
      rw [Bool.or_eq_false_iff] at hb
      rw [decide_eq_false_iff_not] at hb
      exact hb.2 hlt
    simp only [hb]
    simp only [Bool.false_eq_true, if_false]
    omega

theorem finalizeReason_short (r : String) (h : (scrubReason r).length < 10) :
    finalizeReason r = fallbackShortReason := by
  unfold finalizeReason
  have : ((scrubReason r).isEmpty || decide ((scrubReason r).length < 10)) = true := by
    simp [h]
  simp only [this, if_true]

theorem chosenVote_none (names : List String) (content : String)
    (h1 : matchVoteMarker names content = none)
    (h2 : matchLeadingMention names content = none)
    (h3 : matchAnywhere names content = none) :
    chosenVote names content = none := by
  unfold chosenVote
  rw [h1, h2, h3]

/-- C4: when no roster name is found by any of the three extraction rules and
the roster is nonempty, the extractor returns the first roster entry as the
vote (never null) and the fixed insight sentence as the reason (length at
least 10); moreover, whenever the reason standing before the final cleaning
step scrubs to fewer than 10 characters, the returned reason is the fixed
generic fallback sentence. -/
theorem parse_vote_roster_default (selfName content : String) (names : List String)
    (hne : names ≠ [])
    (h1 : matchVoteMarker names content = none)
    (h2 : matchLeadingMention names content = none)
    (h3 : matchAnywhere names content = none) :
    (parseVote selfName names content).vote = names.head?
    ∧ (parseVote selfName names content).vote ≠ none
    ∧ (parseVote selfName names content).reason = fallbackNoNameReason
    ∧ 10 ≤ (parseVote selfName names content).reason.length
    ∧ ∀ c : String, (scrubReason (preReason names c)).length < 10 →
        (parseVote selfName names c).reason = fallbackShortReason := by
  have hcv := chosenVote_none names content h1 h2 h3
  have hvote : (parseVote selfName names content).vote = names.head? := by
    unfold parseVote
    simp only [hcv]
  have hreason : (parseVote selfName names content).reason = fallbackNoNameReason := by
    unfold parseVote preReason
    simp only [hcv]
    have hnemp : names.isEmpty = false := by
      cases names with
      | nil => exact absurd rfl hne
      | cons a t => rfl
    simp only [hnemp, Bool.false_eq_true, if_false]
    show finalizeReason fallbackNoNameReason = fallbackNoNameReason
    decide
  refine ⟨hvote, ?_, hreason, ?_, ?_⟩
  · rw [hvote]
    cases names with
    | nil => exact absurd rfl hne
    | cons a t => simp
  · rw [hreason]
    decide
  · intro c hc
    show finalizeReason (preReason names c) = fallbackShortReason
    exact finalizeReason_short _ hc

/-- Witness for C4 at a concrete garbage input. -/
theorem parse_vote_roster_default_witness :
    (parseVote "Bob" ["Alice"] "zzz").vote = (["Alice"] : List String).head?
    ∧ (parseVote "Bob" ["Alice"] "zzz").vote ≠ none
    ∧ (parseVote "Bob" ["Alice"] "zzz").reason = fallbackNoNameReason
    ∧ 10 ≤ (parseVote "Bob" ["Alice"] "zzz").reason.length
    ∧ ∀ c : String, (scrubReason (preReason ["Alice"] c)).length < 10 →
        (parseVote "Bob" ["Alice"] c).reason = fallbackShortReason :=
  parse_vote_roster_default "Bob" "zzz" ["Alice"]
    (by decide) (by decide) (by decide) (by decide)

/-- C5 counterexample: the roster name "The Optimist" (one of the shipped
personas) is emitted verbatim after the `VOTE:` marker, yet the first rule
finds no match — the regex captures only the single word token "The".  The
name is only recovered later by the anywhere-mention rule. -/
theorem vote_marker_multiword_cex :
    matchVoteMarker ["The Optimist"] "VOTE: The Optimist" = none
    ∧ matchAnywhere ["The Optimist"] "VOTE: The Optimist" = some "The Optimist" := by
  decide

theorem word_not_space (c : Char) (h : isWordChar c = true) : isPySpace c = false := by
  cases hs : isPySpace c with
  | false => rfl
  | true =>
    exfalso
    unfold isPySpace at hs
    simp only [Bool.or_eq_true, beq_iff_eq] at hs
    rcases hs with ((((h' | h') | h') | h') | h') | h' <;> subst h' <;>
      exact absurd h (by decide)

theorem takeWhile_all (p : Char → Bool) (l : List Char) (h : ∀ c ∈ l, p c = true) :
    l.takeWhile p = l := by
  induction l with
  | nil => rfl
  | cons a t ih =>
    rw [List.takeWhile_cons, if_pos (h a (by simp))]
    rw [ih (fun c hc => h c (by simp [hc]))]

theorem dropWhile_no (p : Char → Bool) (l : List Char) (h : ∀ c ∈ l, p c = false) :
    l.dropWhile p = l := by
  cases l with
  | nil => rfl
  | cons a t =>
    rw [List.dropWhile_cons, if_neg]
    simp [h a (by simp)]

theorem stripEnds_no (p : Char → Bool) (l : List Char) (h : ∀ c ∈ l, p c = false) :
    stripEnds p l = l := by
  unfold stripEnds
  rw [dropWhile_no p l h]
  rw [dropWhile_no p l.reverse (fun c hc => h c (List.mem_reverse.mp hc))]
  rw [List.reverse_reverse]

theorem pyStripWs_no_space (l : List Char) (h : ∀ c ∈ l, isPySpace c = false) :
    pyStripWs ⟨l⟩ = ⟨l⟩ := by
  unfold pyStripWs
  show (⟨stripEnds isPySpace l⟩ : String) = _
  rw [stripEnds_no isPySpace l h]

theorem findVoteToken_word (c : Char) (cs : List Char)
    (hw : ∀ d ∈ c :: cs, isWordChar d = true) :
    findVoteToken ('V' :: 'O' :: 'T' :: 'E' :: ':' :: ' ' :: c :: cs) = some (c :: cs) := by
  have hbody : ((('V' :: 'O' :: 'T' :: 'E' :: ':' :: ' ' :: c :: cs).drop 5).dropWhile isPySpace)
      = c :: cs := by
    show ((' ' :: c :: cs).dropWhile isPySpace) = c :: cs
    rw [List.dropWhile_cons, if_pos (by decide)]
    rw [List.dropWhile_cons, if_neg]
    rw [word_not_space c (hw c (by simp))]
    simp
  have hcond : lowerL (List.take 5 ('V' :: 'O' :: 'T' :: 'E' :: ':' :: ' ' :: c :: cs))
      = "vote:".data := by
    show lowerL ['V', 'O', 'T', 'E', ':'] = "vote:".data
    decide
  unfold findVoteToken
  rw [if_pos hcond]
  simp only [hbody]
  show (if isWordChar c = true then some ((c :: cs).takeWhile isWordChar)
      else findVoteToken ('O' :: 'T' :: 'E' :: ':' :: ' ' :: c :: cs)) = some (c :: cs)
  rw [if_pos (hw c (by simp))]
  rw [takeWhile_all isWordChar (c :: cs) hw]

/-- C5 (amended): the first extractor rule captures the first maximal
word-character token after a case-insensitive `VOTE:` marker and selects the
first roster name case-insensitively equal to that token; hence a roster name
made only of word characters that is emitted after `VOTE:` is matched by the
rule (multi-word names are not — see the counterexample). -/
theorem vote_marker_word_token (names : List String) (tok : String)
    (hne : tok.data ≠ []) (hw : ∀ c ∈ tok.data, isWordChar c = true) :
    findVoteToken ("VOTE: " ++ tok).data = some tok.data
    ∧ matchVoteMarker names ("VOTE: " ++ tok)
      = names.find? (fun n => lowerStr n == lowerStr tok) := by
  cases htd : tok.data with
  | nil => exact absurd htd hne
  | cons c cs =>
    have hw' : ∀ d ∈ c :: cs, isWordChar d = true := fun d hd => hw d (htd ▸ hd)
    have hdata : ("VOTE: " ++ tok).data = 'V' :: 'O' :: 'T' :: 'E' :: ':' :: ' ' :: c :: cs := by
      show "VOTE: ".data ++ tok.data = _
      rw [htd]
      rfl
    have hfind : findVoteToken ("VOTE: " ++ tok).data = some (c :: cs) := by
      rw [hdata]
      exact findVoteToken_word c cs hw'
    refine ⟨hfind, ?_⟩
    unfold matchVoteMarker
    rw [hfind]
    have hstrip : pyStripWs ⟨c :: cs⟩ = tok := by
      rw [pyStripWs_no_space (c :: cs) (fun d hd => word_not_space d (hw' d hd))]
      rw [← htd]
    simp only [hstrip]

/-- Witness for C5 (amended) at a concrete single-word roster name. -/
theorem vote_marker_word_token_witness :
    findVoteToken ("VOTE: " ++ "Carol").data = some "Carol".data
    ∧ matchVoteMarker ["Bob", "Carol"] ("VOTE: " ++ "Carol")
      = ["Bob", "Carol"].find? (fun n => lowerStr n == lowerStr "Carol") :=
  vote_marker_word_token ["Bob", "Carol"] "Carol" (by decide) (by decide)

theorem crossExamPairAt_congr (c₁ c₂ : Collab) (topic : String) (agents : List AgentData)
    (h : List Entry) (q : AgentData) (i : Nat)
    (hag : ∀ req : GenReq, req.history = h → c₁ req = c₂ req) :
    crossExamPairAt c₁ topic agents h q i = crossExamPairAt c₂ topic agents h q i := by
  unfold crossExamPairAt
  cases agents.get? ((i + 1) % agents.length) with
  | none => rfl
  | some t =>
    have h1 : generate_cross_examination c₁ q topic h t.name
        = generate_cross_examination c₂ q topic h t.name := by
      unfold generate_cross_examination
      rw [hag ⟨q.name, topic, h, .ask t.name⟩ rfl]
    simp only [h1]
    have h2 : generate_cross_exam_response c₁ t topic h q.name
          (generate_cross_examination c₂ q topic h t.name)
        = generate_cross_exam_response c₂ t topic h q.name
          (generate_cross_examination c₂ q topic h t.name) := by
      unfold generate_cross_exam_response
      rw [hag ⟨t.name, topic, h,
        .answer q.name (generate_cross_examination c₂ q topic h t.name)⟩ rfl]
    simp only [h2]

theorem crossExamGo_congr (c₁ c₂ : Collab) (topic : String) (agents : List AgentData)
    (h : List Entry)
    (hag : ∀ req : GenReq, req.history = h → c₁ req = c₂ req) :
    ∀ (l : List AgentData) (i : Nat),
      crossExamGo c₁ topic agents h l i = crossExamGo c₂ topic agents h l i := by
  intro l
  induction l with
  | nil => intro i; rfl
  | cons q rest ih =>
    intro i
    unfold crossExamGo
    rw [ih (i + 1), crossExamPairAt_congr c₁ c₂ topic agents h q i hag]

theorem crossExamGo_enumFrom (c : Collab) (topic : String) (agents : List AgentData)
    (h : List Entry) :
    ∀ (l : List AgentData) (i : Nat),
      crossExamGo c topic agents h l i
        = (List.enumFrom i l).flatMap (fun p => crossExamPairAt c topic agents h p.2 p.1) := by
  intro l
  induction l with
  | nil => intro i; rfl
  | cons q rest ih =>
    intro i
    unfold crossExamGo
    rw [ih (i + 1)]
    rfl

/-- C2 (amended): every generation call of the cross-examination phase
receives the transcript frozen at the pre-phase state `h` — the phase output
is insensitive to what the collaborator would answer on any other snapshot —
and the phase output is, in rotation order, the flattened list of
question/response pairs (question first) all generated against `h`.  The
pairs are appended to the shared transcript only after the whole phase (see
`runDebate`/`historyAfterCrossExam`). -/
theorem cross_exam_frozen_snapshot (topic : String) (agents : List AgentData)
    (h : List Entry) (c₁ c₂ : Collab)
    (hag : ∀ req : GenReq, req.history = h → c₁ req = c₂ req) :
    runCrossExamination c₁ topic agents h = runCrossExamination c₂ topic agents h
    ∧ runCrossExamination c₁ topic agents h
      = (agents.enum).flatMap (fun p => crossExamPairAt c₁ topic agents h p.2 p.1)
    ∧ crossExamSnapshots c₁ topic agents h = List.replicate (2 * agents.length) h := by
  refine ⟨crossExamGo_congr c₁ c₂ topic agents h hag agents 0, ?_, ?_⟩
  · exact crossExamGo_enumFrom c₁ topic agents h agents 0
  · unfold crossExamSnapshots
    induction agents with
    | nil => rfl
    | cons a t ih =>
      simp only [List.flatMap_cons, List.length_cons]
      rw [ih]
      have : 2 * (t.length + 1) = (2 * t.length) + 1 + 1 := by omega
      rw [this]
      rfl

/-- Witness for C2 (amended) at a concrete debate. -/
theorem cross_exam_frozen_snapshot_witness :
    runCrossExamination constCollab "t" [agAda, agBob] []
      = runCrossExamination constCollab "t" [agAda, agBob] []
    ∧ runCrossExamination constCollab "t" [agAda, agBob] []
      = ([agAda, agBob].enum).flatMap
          (fun p => crossExamPairAt constCollab "t" [agAda, agBob] [] p.2 p.1)
    ∧ crossExamSnapshots constCollab "t" [agAda, agBob] []
      = List.replicate (2 * [agAda, agBob].length) [] :=
  cross_exam_frozen_snapshot "t" [agAda, agBob] [] constCollab constCollab
    (fun _ _ => rfl)

/-- C2 counterexample: under the echo collaborator (which returns the length
of the snapshot it receives), the source cross-examination phase hands EVERY
call the empty pre-phase transcript (all messages echo "0"), while the
spec-described incremental phase would show the second questioner a
transcript already holding the first pair (its messages echo "2"); the two
runs differ at a concrete input, refuting the claim that each pair is
appended before the next question is generated. -/
theorem cross_exam_claim_cex :
    runCrossExamination echoLenCollab "t" [agAda, agBob] []
      = [Entry.crossExamQuestion "Ada" "Bob" "0", Entry.crossExamResponse "Bob" "Ada" "0",
         Entry.crossExamQuestion "Bob" "Ada" "0", Entry.crossExamResponse "Ada" "Bob" "0"]
    ∧ crossExamSpecModel echoLenCollab "t" [agAda, agBob] []
      = [Entry.crossExamQuestion "Ada" "Bob" "0", Entry.crossExamResponse "Bob" "Ada" "0",
         Entry.crossExamQuestion "Bob" "Ada" "2", Entry.crossExamResponse "Ada" "Bob" "2"]
    ∧ runCrossExamination echoLenCollab "t" [agAda, agBob] []
      ≠ crossExamSpecModel echoLenCollab "t" [agAda, agBob] [] := by
  decide

/-! ### Lemmas about the trace step relation -/

theorem segOk_append (t₁ t₂ : List (Event × List Entry)) :
    ∀ (h h₁ h₂ : List Entry), SegOk h t₁ h₁ → SegOk h₁ t₂ h₂ → SegOk h (t₁ ++ t₂) h₂ := by
  induction t₁ with
  | nil =>
    intro h h₁ h₂ h1 h2
    unfold SegOk at h1
    subst h1
    simpa using h2
  | cons q tr ih =>
    intro h h₁ h₂ h1 h2
    obtain ⟨hs, hrest⟩ := h1
    exact ⟨hs, ih q.2 h₁ h₂ hrest h2⟩

theorem segOk_chain : ∀ (tr : List (Event × List Entry)) (h h' : List Entry),
    SegOk h tr h' → List.Chain' stepOk tr := by
  intro tr
  induction tr with
  | nil => intro h h' _; exact List.chain'_nil
  | cons q rest ih =>
    intro h h' hseg
    obtain ⟨_, hrest⟩ := hseg
    rw [List.chain'_cons']
    refine ⟨?_, ih q.2 h' hrest⟩
    intro y hy
    cases rest with
    | nil => simp at hy
    | cons r t =>
      simp only [List.head?_cons, Option.mem_def, Option.some.injEq] at hy
      subst hy
      exact hrest.1

theorem stepFrom_len (h : List Entry) (q : Event × List Entry) (hs : stepFrom h q) :
    h.length ≤ q.2.length := by
  unfold stepFrom at hs
  rcases q with ⟨ev, h2⟩
  cases ev <;> simp only at hs
  case entry e =>
    by_cases hv : e.isVote = true
    · rw [if_pos hv] at hs
      simp [hs]
    · rw [if_neg hv] at hs
      simp [hs]
  all_goals simp [hs]

theorem stepFrom_novote (h : List Entry) (q : Event × List Entry) (hs : stepFrom h q)
    (hh : ∀ e ∈ h, e.isVote = false) : ∀ e ∈ q.2, e.isVote = false := by
  unfold stepFrom at hs
  rcases q with ⟨ev, h2⟩
  cases ev <;> simp only at hs
  case entry e =>
    by_cases hv : e.isVote = true
    · rw [if_pos hv] at hs
      subst hs
      exact hh
    · rw [if_neg hv] at hs
      subst hs
      intro x hx
      rcases List.mem_append.mp hx with hx1 | hx2
      · exact hh x hx1
      · simp only [List.mem_singleton] at hx2
        subst hx2
        simpa using hv
  all_goals (subst hs; exact hh)

theorem segOk_novote : ∀ (tr : List (Event × List Entry)) (h h' : List Entry),
    SegOk h tr h' → (∀ e ∈ h, e.isVote = false) →
    (∀ p ∈ tr, ∀ e ∈ p.2, e.isVote = false) ∧ (∀ e ∈ h', e.isVote = false) := by
  intro tr
  induction tr with
  | nil =>
    intro h h' hseg hh
    unfold SegOk at hseg
    subst hseg
    exact ⟨by simp, hh⟩
  | cons q rest ih =>
    intro h h' hseg hh
    obtain ⟨hs, hrest⟩ := hseg
    have hq := stepFrom_novote h q hs hh
    obtain ⟨h1, h2⟩ := ih q.2 h' hrest hq
    refine ⟨?_, h2⟩
    intro p hp
    rcases List.mem_cons.mp hp with hp1 | hp2
    · subst hp1; exact hq
    · exact h1 p hp2

theorem segOk_runAgentsRound (collab : Collab) (topic : String) (r : Nat) (ph : String) :
    ∀ (l : List AgentData) (h : List Entry),
      SegOk h (runAgentsRound collab topic r ph l h)
        (histAfterAgentsRound collab topic r ph l h) := by
  intro l
  induction l with
  | nil => intro h; rfl
  | cons ag rest ih =>
    intro h
    refine ⟨?_, ih (h ++ [argEntryOf collab topic r ph ag h])⟩
    show (if (argEntryOf collab topic r ph ag h).isVote = true
        then h ++ [argEntryOf collab topic r ph ag h] = h
        else h ++ [argEntryOf collab topic r ph ag h] = h ++ [argEntryOf collab topic r ph ag h])
    rw [if_neg]
    unfold argEntryOf Entry.isVote
    simp

theorem segOk_runRounds (collab : Collab) (topic : String) (agents : List AgentData) :
    ∀ (rs : List Nat) (h : List Entry),
      SegOk h (runRounds collab topic agents rs h)
        (histAfterRoundsLoop collab topic agents rs h) := by
  intro rs
  induction rs with
  | nil => intro h; rfl
  | cons r rest ih =>
    intro h
    refine ⟨rfl, ?_⟩
    exact segOk_append _ _ _ _ _
      (segOk_runAgentsRound collab topic r (phaseName r) agents h)
      (ih (histAfterAgentsRound collab topic r (phaseName r) agents h))

theorem segOk_emitAppend : ∀ (es h : List Entry), (∀ e ∈ es, e.isVote = false) →
    SegOk h (emitAppend h es) (h ++ es) := by
  intro es
  induction es with
  | nil => intro h _; show h ++ [] = h; simp
  | cons e rest ih =>
    intro h hnv
    refine ⟨?_, ?_⟩
    · show (if e.isVote = true then h ++ [e] = h else h ++ [e] = h ++ [e])
      rw [if_neg]
      simp [hnv e (by simp)]
    · have := ih (h ++ [e]) (fun x hx => hnv x (by simp [hx]))
      simpa [List.append_assoc] using this

theorem segOk_runClosingTrace (collab : Collab) (topic : String) :
    ∀ (l : List AgentData) (h : List Entry),
      SegOk h (runClosingTrace collab topic l h) (histAfterClosingLoop collab topic l h) := by
  intro l
  induction l with
  | nil => intro h; rfl
  | cons ag rest ih =>
    intro h
    refine ⟨?_, ih (h ++ [closEntryOf collab topic ag h])⟩
    show (if (closEntryOf collab topic ag h).isVote = true
        then h ++ [closEntryOf collab topic ag h] = h
        else h ++ [closEntryOf collab topic ag h] = h ++ [closEntryOf collab topic ag h])
    rw [if_neg]
    unfold closEntryOf Entry.isVote
    simp

theorem crossExamPairAt_novote (collab : Collab) (topic : String) (agents : List AgentData)
    (h : List Entry) (q : AgentData) (i : Nat) :
    ∀ e ∈ crossExamPairAt collab topic agents h q i, e.isVote = false := by
  unfold crossExamPairAt
  cases agents.get? ((i + 1) % agents.length) with
  | none => simp
  | some t =>
    intro e he
    simp only [List.mem_cons, List.mem_singleton] at he
    rcases he with he | he | he
    · subst he; rfl
    · subst he; rfl
    · simp at he

theorem runCrossExamination_novote (collab : Collab) (topic : String)
    (agents : List AgentData) (h : List Entry) :
    ∀ e ∈ runCrossExamination collab topic agents h, e.isVote = false := by
  unfold runCrossExamination
  suffices hs : ∀ (l : List AgentData) (i : Nat),
      ∀ e ∈ crossExamGo collab topic agents h l i, e.isVote = false by
    exact hs agents 0
  intro l
  induction l with
  | nil => intro i e he; simp [crossExamGo] at he
  | cons q rest ih =>
    intro i e he
    unfold crossExamGo at he
    rcases List.mem_append.mp he with h1 | h2
    · exact crossExamPairAt_novote collab topic agents h q i e h1
    · exact ih (i + 1) e h2

theorem runVotingRound_isvote (collab : Collab) (topic : String)
    (agents : List AgentData) (h : List Entry) :
    ∀ v ∈ runVotingRound collab topic agents h, v.isVote = true := by
  intro v hv
  unfold runVotingRound at hv
  rcases List.mem_map.mp hv with ⟨ag, _, rfl⟩
  rfl

theorem segOk_voteYields (h : List Entry) :
    ∀ (vs : List Entry), (∀ v ∈ vs, v.isVote = true) →
      SegOk h (vs.map (fun v => (Event.entry v, h))) h := by
  intro vs
  induction vs with
  | nil => intro _; rfl
  | cons v rest ih =>
    intro hv
    refine ⟨?_, ih (fun x hx => hv x (by simp [hx]))⟩
    show (if v.isVote = true then h = h else h = h ++ [v])
    rw [if_pos (hv v (by simp))]

theorem segOk_runDebate (collab : Collab) (a : Arena) (h2 : 2 ≤ a.agents.length) :
    SegOk [] (runDebate collab a) (historyAfterClosing collab a) := by
  unfold runDebate
  rw [if_neg (by omega)]
  have s1 : SegOk []
      ((Event.start a.topic a.agents a.rounds, ([] : List Entry)) :: roundsTrace collab a)
      (historyAfterRounds collab a) :=
    ⟨rfl, segOk_runRounds collab a.topic a.agents (roundNums a.rounds) []⟩
  have s2 : SegOk (historyAfterRounds collab a)
      ((Event.crossExamStart crossExamStartMsg, historyAfterRounds collab a) ::
        emitAppend (historyAfterRounds collab a) (crossEntries collab a))
      (historyAfterCrossExam collab a) :=
    ⟨rfl, segOk_emitAppend (crossEntries collab a) (historyAfterRounds collab a)
      (runCrossExamination_novote collab a.topic a.agents (historyAfterRounds collab a))⟩
  have s3 : SegOk (historyAfterCrossExam collab a)
      ((Event.closingStart closingStartMsg, historyAfterCrossExam collab a) ::
        closingTrace collab a)
      (historyAfterClosing collab a) :=
    ⟨rfl, segOk_runClosingTrace collab a.topic a.agents (historyAfterCrossExam collab a)⟩
  have s4 : SegOk (historyAfterClosing collab a)
      ((Event.votingStart votingStartMsg, historyAfterClosing collab a) ::
        (voteEntries collab a).map (fun v => (Event.entry v, historyAfterClosing collab a)))
      (historyAfterClosing collab a) :=
    ⟨rfl, segOk_voteYields (historyAfterClosing collab a) (voteEntries collab a)
      (runVotingRound_isvote collab a.topic a.agents (historyAfterClosing collab a))⟩
  have s5 : SegOk (historyAfterClosing collab a)
      [(Event.votingResults (tallyVotes (voteEntries collab a))
          (formatVotingResults (tallyVotes (voteEntries collab a))),
        historyAfterClosing collab a),
       (Event.synthesis "final" "Moderator" "Synthesis"
          (generate_synthesis collab a.topic (historyAfterClosing collab a)),
        historyAfterClosing collab a),
       (Event.ended (historyAfterClosing collab a).length, historyAfterClosing collab a)]
      (historyAfterClosing collab a) :=
    ⟨rfl, rfl, rfl, rfl⟩
  exact segOk_append _ _ _ _ _
    (segOk_append _ _ _ _ _
      (segOk_append _ _ _ _ _
        (segOk_append _ _ _ _ _ s1 s2) s3) s4) s5

/-- C3 (amended): across one debate run the transcript length is
non-decreasing, and every yielded event obeys the step relation `stepOk`: a
non-vote content entry (argument, cross-exam question/response, closing)
extends the transcript by exactly that entry, while marker events and YIELDED
VOTE ENTRIES leave the transcript unchanged — votes are never appended, and
no transcript state of the run ever contains a vote entry. -/
theorem history_monotone_no_vote_append (collab : Collab) (a : Arena)
    (h2 : 2 ≤ a.agents.length) :
    List.Chain' stepOk (runDebate collab a)
    ∧ List.Chain' (fun p q : Event × List Entry => p.2.length ≤ q.2.length)
        (runDebate collab a)
    ∧ ∀ p ∈ runDebate collab a, ∀ e ∈ p.2, e.isVote = false := by
  have hseg := segOk_runDebate collab a h2
  have hch := segOk_chain _ _ _ hseg
  refine ⟨hch, ?_, (segOk_novote _ _ _ hseg (by simp)).1⟩
  exact List.Chain'.imp (fun p q hpq => stepFrom_len p.2 q hpq) hch

/-- Witness for C3 (amended) at a concrete two-agent, one-round debate. -/
theorem history_monotone_no_vote_append_witness :
    List.Chain' stepOk (runDebate constCollab arenaAB)
    ∧ List.Chain' (fun p q : Event × List Entry => p.2.length ≤ q.2.length)
        (runDebate constCollab arenaAB)
    ∧ ∀ p ∈ runDebate constCollab arenaAB, ∀ e ∈ p.2, e.isVote = false :=
  history_monotone_no_vote_append constCollab arenaAB (by decide)

/-- C3 counterexample: in a concrete two-agent, one-round debate the
transcript length after each event is
`[0,0,1,2,2,3,4,5,6,6,7,8,8,8,8,8,8,8]`: the events at positions 13 and 14
are the two yielded vote entries, and the transcript length stays at 8 across
them (the vote results are never appended), refuting the claim that the
transcript strictly increases after every vote call and that each vote is
appended as an individual vote entry. -/
theorem votes_not_appended_cex :
    traceLens (runDebate constCollab arenaAB)
      = [0, 0, 1, 2, 2, 3, 4, 5, 6, 6, 7, 8, 8, 8, 8, 8, 8, 8]
    ∧ ((runDebate constCollab arenaAB).map Prod.fst).get? 13
      = some (Event.entry (Entry.vote "Ada" (some "Bob") fallbackNoNameReason))
    ∧ ((runDebate constCollab arenaAB).map Prod.fst).get? 12
      = some (Event.votingStart votingStartMsg)
    ∧ (∀ e ∈ historyAfterClosing constCollab arenaAB, e.isVote = false) := by
  decide

/-- C6: every vote call of the voting phase receives the transcript frozen at
the state immediately after the Closing phase (`historyAfterClosing`): the
phase result is insensitive to what the collaborator would answer on any
other snapshot, and the frozen snapshot contains no vote entry at all — in
particular no vote of an earlier voter of the same phase. -/
theorem voting_snapshot_frozen (collab : Collab) (a : Arena)
    (h2 : 2 ≤ a.agents.length) :
    (∀ c₂ : Collab,
      (∀ req : GenReq, req.history = historyAfterClosing collab a → collab req = c₂ req) →
      runVotingRound collab a.topic a.agents (historyAfterClosing collab a)
        = runVotingRound c₂ a.topic a.agents (historyAfterClosing collab a))
    ∧ ∀ e ∈ historyAfterClosing collab a, e.isVote = false := by
  refine ⟨?_, (segOk_novote _ _ _ (segOk_runDebate collab a h2) (by simp)).2⟩
  intro c₂ hag
  unfold runVotingRound
  apply List.map_congr_left
  intro ag _
  have hv : generate_vote collab ag a.topic (historyAfterClosing collab a)
        (a.agents.map AgentData.name)
      = generate_vote c₂ ag a.topic (historyAfterClosing collab a)
        (a.agents.map AgentData.name) := by
    unfold generate_vote
    simp only [hag ⟨ag.name, a.topic, historyAfterClosing collab a,
      .voteReq ((a.agents.map AgentData.name).filter (fun n => n != ag.name))⟩ rfl]
  simp only [hv]

/-- Witness for C6 at a concrete debate (agreement hypothesis discharged with
the collaborator itself). -/
theorem voting_snapshot_frozen_witness :
    (∀ c₂ : Collab,
      (∀ req : GenReq, req.history = historyAfterClosing constCollab arenaAB →
        constCollab req = c₂ req) →
      runVotingRound constCollab arenaAB.topic arenaAB.agents
          (historyAfterClosing constCollab arenaAB)
        = runVotingRound c₂ arenaAB.topic arenaAB.agents
          (historyAfterClosing constCollab arenaAB))
    ∧ ∀ e ∈ historyAfterClosing constCollab arenaAB, e.isVote = false :=
  voting_snapshot_frozen constCollab arenaAB (by decide)

/-- C7 counterexample: on an arena whose `is_running` flag is already `true`,
`run_debate` neither rejects nor ignores the request — it emits the `start`
event, produces argument entries and runs the full 18-event debate,
resetting the shared transcript. -/
theorem second_run_not_rejected_cex :
    ((runDebate constCollab arenaABRunning).map Prod.fst).get? 0
      = some (Event.start "t" [agAda, agBob] 1)
    ∧ ((runDebate constCollab arenaABRunning).map Prod.fst).get? 2
      = some (Event.entry (Entry.argument 1 "Opening Statements" "Ada" "Engineer" "x"))
    ∧ (runDebate constCollab arenaABRunning).length = 18
    ∧ ((runDebate constCollab arenaABRunning).map Prod.fst).all
        (fun ev => !ev.isError) = true := by
  decide

/-- C7 (amended): `run_debate` never consults `is_running` (the flag is set
during a run but never read), so a second run request on a busy orchestrator
proceeds exactly as on an idle one instead of being rejected or ignored. -/
theorem run_debate_ignores_is_running (collab : Collab) (a : Arena) (b₁ b₂ : Bool) :
    runDebate collab { a with is_running := b₁ }
      = runDebate collab { a with is_running := b₂ } := rfl

/-- C8: whenever the generation collaborator fails on a text-producing call
(argument, cross-exam question, cross-exam response, closing, synthesis), the
operation returns the visibly-tagged placeholder embedding the failure
reason instead of propagating the error, and a debate with at least two
agents always reaches its `ended` event. -/
theorem generation_failure_placeholders :
    (∀ (collab : Collab) (ag : AgentData) (topic : String) (h : List Entry)
        (r : Nat) (e : String),
      collab ⟨ag.name, topic, h, .respond r⟩ = .error e →
      generate_response collab ag topic h r = "[Error generating response: " ++ e ++ "]")
    ∧ (∀ (collab : Collab) (ag : AgentData) (topic : String) (h : List Entry)
        (target e : String),
      collab ⟨ag.name, topic, h, .ask target⟩ = .error e →
      generate_cross_examination collab ag topic h target
        = "[Error generating question: " ++ e ++ "]")
    ∧ (∀ (collab : Collab) (ag : AgentData) (topic : String) (h : List Entry)
        (qn q e : String),
      collab ⟨ag.name, topic, h, .answer qn q⟩ = .error e →
      generate_cross_exam_response collab ag topic h qn q
        = "[Error generating response: " ++ e ++ "]")
    ∧ (∀ (collab : Collab) (ag : AgentData) (topic : String) (h : List Entry)
        (e : String),
      collab ⟨ag.name, topic, h, .close⟩ = .error e →
      generate_closing_statement collab ag topic h
        = "[Error generating closing: " ++ e ++ "]")
    ∧ (∀ (collab : Collab) (topic : String) (h : List Entry) (e : String),
      collab ⟨"Moderator", topic, h, .synthesis⟩ = .error e →
      generate_synthesis collab topic h = "[Error generating synthesis: " ++ e ++ "]")
    ∧ (∀ (collab : Collab) (a : Arena), 2 ≤ a.agents.length →
      (Event.ended (historyAfterClosing collab a).length, historyAfterClosing collab a)
        ∈ runDebate collab a) := by
  refine ⟨?_, ?_, ?_, ?_, ?_, ?_⟩
  · intro collab ag topic h r e hc
    unfold generate_response
    rw [hc]
  · intro collab ag topic h target e hc
    unfold generate_cross_examination
    rw [hc]
  · intro collab ag topic h qn q e hc
    unfold generate_cross_exam_response
    rw [hc]
  · intro collab ag topic h e hc
    unfold generate_closing_statement
    rw [hc]
  · intro collab topic h e hc
    unfold generate_synthesis
    rw [hc]
  · intro collab a h2
    unfold runDebate
    rw [if_neg (by omega)]
    simp

/-- Witness for C8: a concrete failing call yields the tagged placeholder,
and a concrete debate reaches its `ended` event. -/
theorem generation_failure_placeholders_witness :
    generate_response failCollab agAda "t" [] 1
      = "[Error generating response: " ++ "boom" ++ "]"
    ∧ (Event.ended (historyAfterClosing constCollab arenaAB).length,
        historyAfterClosing constCollab arenaAB) ∈ runDebate constCollab arenaAB :=
  ⟨generation_failure_placeholders.1 failCollab agAda "t" [] 1 "boom" rfl,
   generation_failure_placeholders.2.2.2.2.2 constCollab arenaAB (by decide)⟩

theorem dropWhile_all_prepend (p : Char → Bool) :
    ∀ (pre l : List Char), (∀ x ∈ pre, p x = true) →
      (pre ++ l).dropWhile p = l.dropWhile p := by
  intro pre
  induction pre with
  | nil => intro l _; rfl
  | cons a t ih =>
    intro l hp
    rw [List.cons_append, List.dropWhile_cons, if_pos (hp a (by simp))]
    exact ih l (fun x hx => hp x (by simp [hx]))

theorem stripEnds_exact (p : Char → Bool) (pre core post : List Char)
    (hpre : ∀ x ∈ pre, p x = true) (hpost : ∀ x ∈ post, p x = true)
    (hhead : ∀ d, core.head? = some d → p d = false)
    (hlast : ∀ d, core.getLast? = some d → p d = false) :
    stripEnds p (pre ++ core ++ post) = core := by
  unfold stripEnds
  have h1 : (pre ++ core ++ post).dropWhile p = (core ++ post).dropWhile p := by
    rw [List.append_assoc]
    exact dropWhile_all_prepend p pre (core ++ post) hpre
  rw [h1]
  cases core with
  | nil =>
    simp only [List.nil_append]
    rw [List.dropWhile_eq_nil_iff.mpr hpost]
    rfl
  | cons c cs =>
    have hA : ((c :: cs) ++ post).dropWhile p = (c :: cs) ++ post := by
      rw [List.cons_append, List.dropWhile_cons, if_neg]
      simp [hhead c rfl]
    rw [hA, List.reverse_append]
    rw [dropWhile_all_prepend p post.reverse (c :: cs).reverse
      (fun x hx => hpost x (List.mem_reverse.mp hx))]
    have hB : (c :: cs).reverse.dropWhile p = (c :: cs).reverse := by
      cases hr : (c :: cs).reverse with
      | nil => rfl
      | cons e es =>
        rw [List.dropWhile_cons, if_neg]
        have hg : (c :: cs).getLast? = some e := by
          rw [← List.head?_reverse, hr]
          rfl
        simp [hlast e hg]
    rw [hB, List.reverse_reverse]

theorem mem_stripEnds (p : Char → Bool) (l : List Char) (c : Char)
    (h : c ∈ stripEnds p l) : c ∈ l := by
  unfold stripEnds at h
  rw [List.mem_reverse] at h
  have h2 : c ∈ (l.dropWhile p).reverse := (List.dropWhile_sublist p).mem h
  rw [List.mem_reverse] at h2
  exact (List.dropWhile_sublist p).mem h2

theorem sanitizeOutput_no_emoji (text : String) :
    ∀ c ∈ (sanitizeOutput text).data, isEmojiChar c = false := by
  intro c hc
  unfold sanitizeOutput strip_emojis at hc
  have hc2 : c ∈ (stripQuotes (pyStripWs text)).data.filter (fun d => !isEmojiChar d) :=
    mem_stripEnds isPySpace _ c hc
  have := List.of_mem_filter hc2
  simpa using this

/-- C9 counterexample: a response wrapped in TWO layers of double quotes
comes back with BOTH layers removed (`"\"\"hi\"\""` becomes `"hi"`), not with
the inner layer kept (`"\"hi\""`), because `str.strip('"\'')` removes every
leading/trailing quote character, not a single layer. -/
theorem quote_strip_two_layers_cex :
    generate_response (fun _ => .ok "\"\"hi\"\"") agAda "t" [] 1 = "hi"
    ∧ ("hi" : String) ≠ "\"hi\"" := by
  decide

/-- C9 (amended): every text-producing participant operation (argument,
cross-exam question, cross-exam response, closing) applies the same
sanitation pipeline to the collaborator's output: whitespace strip, removal
of ALL leading and trailing quote characters (so multi-layer wrappings lose
every layer — `stripQuotes` removes exactly the maximal quote-character
margins), and deletion of every emoji-range glyph. -/
theorem sanitize_uniform_all_layers :
    (∀ (text topic : String) (ag : AgentData) (h : List Entry) (r : Nat),
      generate_response (fun _ => .ok text) ag topic h r = sanitizeOutput text)
    ∧ (∀ (text topic : String) (ag : AgentData) (h : List Entry) (target : String),
      generate_cross_examination (fun _ => .ok text) ag topic h target = sanitizeOutput text)
    ∧ (∀ (text topic : String) (ag : AgentData) (h : List Entry) (qn q : String),
      generate_cross_exam_response (fun _ => .ok text) ag topic h qn q = sanitizeOutput text)
    ∧ (∀ (text topic : String) (ag : AgentData) (h : List Entry),
      generate_closing_statement (fun _ => .ok text) ag topic h = sanitizeOutput text)
    ∧ (∀ text : String, ∀ c ∈ (sanitizeOutput text).data, isEmojiChar c = false)
    ∧ (∀ (pre core post : List Char),
      (∀ x ∈ pre, quoteChars.contains x = true) →
      (∀ x ∈ post, quoteChars.contains x = true) →
      (∀ d, core.head? = some d → quoteChars.contains d = false) →
      (∀ d, core.getLast? = some d → quoteChars.contains d = false) →
      stripQuotes ⟨pre ++ core ++ post⟩ = ⟨core⟩) := by
  refine ⟨fun _ _ _ _ _ => rfl, fun _ _ _ _ _ => rfl, fun _ _ _ _ _ _ => rfl,
    fun _ _ _ _ => rfl, sanitizeOutput_no_emoji, ?_⟩
  intro pre core post hpre hpost hhead hlast
  unfold stripQuotes
  show (⟨stripEnds (quoteChars.contains ·) (pre ++ core ++ post)⟩ : String) = _
  rw [stripEnds_exact (quoteChars.contains ·) pre core post hpre hpost hhead hlast]

/-- Witness for C9 (amended) at concrete inputs. -/
theorem sanitize_uniform_all_layers_witness :
    generate_response (fun _ => .ok "ok then") agAda "t" [] 1 = sanitizeOutput "ok then"
    ∧ isEmojiChar 'h' = false
    ∧ stripQuotes ⟨['"', '"'] ++ ['h', 'i'] ++ ['"']⟩ = ⟨['h', 'i']⟩ :=
  ⟨sanitize_uniform_all_layers.1 "ok then" "t" agAda [] 1,
   sanitize_uniform_all_layers.2.2.2.2.1 "hi" 'h' (by decide),
   sanitize_uniform_all_layers.2.2.2.2.2 ['"', '"'] ['h', 'i'] ['"']
     (by decide) (by decide) (by decide) (by decide)⟩

theorem get?_append_left_entries : ∀ (l₁ l₂ : List (List Entry)) (j : Nat),
    j < l₁.length → (l₁ ++ l₂).get? j = l₁.get? j := by
  intro l₁
  induction l₁ with
  | nil => intro l₂ j hj; simp at hj
  | cons a t ih =>
    intro l₂ j hj
    cases j with
    | zero => rfl
    | succ k => exact ih l₂ k (by simpa using hj)

theorem get?_append_length_entries : ∀ (l : List (List Entry)) (v : List Entry),
    (l ++ [v]).get? l.length = some v := by
  intro l
  induction l with
  | nil => intro v; rfl
  | cons a t ih => intro v; exact ih v

theorem get?_set_ne_entries : ∀ (l : List (List Entry)) (i j : Nat) (v : List Entry),
    i ≠ j → (l.set i v).get? j = l.get? j := by
  intro l
  induction l with
  | nil => intro i j v _; rfl
  | cons a t ih =>
    intro i j v hij
    cases i with
    | zero =>
      cases j with
      | zero => exact absurd rfl hij
      | succ k => rfl
    | succ m =>
      cases j with
      | zero => rfl
      | succ k => exact ih m k v (fun hmk => hij (by rw [hmk]))

/-- C10: `get_history` returns a COPY of the transcript list: the fresh list
object holds the same contents, and mutating it (appending an entry, or
removing the last entry) leaves the arena transcript object untouched. -/
theorem get_history_copy_isolated (st : ListStore) (arenaRef : Nat) (e : Entry)
    (h : arenaRef < List.length st) :
    readCell (get_history st arenaRef).1 (get_history st arenaRef).2
      = readCell st arenaRef
    ∧ readCell (pyAppend (get_history st arenaRef).1 (get_history st arenaRef).2 e) arenaRef
      = readCell st arenaRef
    ∧ readCell (pyPop (get_history st arenaRef).1 (get_history st arenaRef).2) arenaRef
      = readCell st arenaRef := by
  have hne : List.length st ≠ arenaRef := by omega
  have h1 : (get_history st arenaRef).1 = st ++ [readCell st arenaRef] := rfl
  have h2 : (get_history st arenaRef).2 = List.length st := rfl
  refine ⟨?_, ?_, ?_⟩
  · rw [h1, h2]
    unfold readCell
    rw [get?_append_length_entries]
    rfl
  · rw [h1, h2]
    unfold pyAppend writeCell readCell
    rw [get?_set_ne_entries _ _ _ _ hne]
    rw [get?_append_left_entries st _ arenaRef h]
  · rw [h1, h2]
    unfold pyPop writeCell readCell
    rw [get?_set_ne_entries _ _ _ _ hne]
    rw [get?_append_left_entries st _ arenaRef h]

/-- Witness for C10 at a concrete one-cell store. -/
theorem get_history_copy_isolated_witness :
    readCell (get_history [[Entry.closing "a" "b" "c"]] 0).1
        (get_history [[Entry.closing "a" "b" "c"]] 0).2
      = readCell [[Entry.closing "a" "b" "c"]] 0
    ∧ readCell (pyAppend (get_history [[Entry.closing "a" "b" "c"]] 0).1
        (get_history [[Entry.closing "a" "b" "c"]] 0).2 (Entry.closing "d" "e" "f")) 0
      = readCell [[Entry.closing "a" "b" "c"]] 0
    ∧ readCell (pyPop (get_history [[Entry.closing "a" "b" "c"]] 0).1
        (get_history [[Entry.closing "a" "b" "c"]] 0).2) 0
      = readCell [[Entry.closing "a" "b" "c"]] 0 :=
  get_history_copy_isolated [[Entry.closing "a" "b" "c"]] 0
    (Entry.closing "d" "e" "f") (by decide)
